import Mathlib

/-!
Shallow embedding of the event-aggregation server in `src/app.py`.

Modelling conventions:
* Timestamps are `Nat` seconds since 1970-01-01T00:00:00 treated as UTC,
  mirroring Python `datetime` at second resolution (microseconds are always
  zeroed by the code paths modelled here).  Python `datetime` is bounded to
  years 1..9999; the model uses `Nat` and restricts constructed dates to
  years 1970..9999 (pre-1970 instants are not representable here; the
  program only ever manipulates current and future event dates).
* The ambient clock (`time.time()`, `now_local()`) is threaded through as
  explicit parameters `now_ts : Nat` (epoch seconds) and `now : Nat`.
* Third-party library calls (`requests`, BeautifulSoup, `json.loads`,
  `dateutil.parser`) are modelled at their observable boundary: fetching is
  an oracle `String → Except String Page`, a page is the parsed view
  BeautifulSoup would expose (JSON-LD script payloads and block-level
  containers), and `dateutil` parsing is modelled by executable functions
  over a documented input fragment (see `dtparse_fuzzy`, `dtparse_full`).
-/

namespace SpliceApp

/-- `CACHE_TTL_SECONDS = 6 * 60 * 60` from the source. -/
def CACHE_TTL_SECONDS : Nat := 6 * 60 * 60

/-- Gregorian leap-year test. -/
def isLeap (y : Nat) : Bool := (y % 4 == 0 && y % 100 != 0) || y % 400 == 0

/-- Days in a month of the proleptic Gregorian calendar. -/
def daysInMonth (y m : Nat) : Nat :=
  if m = 2 then (if isLeap y then 29 else 28)
  else if m = 4 ∨ m = 6 ∨ m = 9 ∨ m = 11 then 30
  else 31

/-- Days since 1970-01-01 of the civil date `y-m-d` (valid for dates from
1970 on; the standard era-based conversion). -/
def daysFromCivil (y m d : Nat) : Nat :=
  let y1 := if m ≤ 2 then y - 1 else y
  let era := y1 / 400
  let yoe := y1 % 400
  let mp  := if m > 2 then m - 3 else m + 9
  let doy := (153 * mp + 2) / 5 + d - 1
  let doe := yoe * 365 + yoe / 4 - yoe / 100 + doy
  era * 146097 + doe - 719468

/-- Civil date `(year, month, day)` of a day count since 1970-01-01. -/
def civilFromDays (z : Nat) : Nat × Nat × Nat :=
  let z1 := z + 719468
  let era := z1 / 146097
  let doe := z1 % 146097
  let yoe := (doe - doe / 1460 + doe / 36524 - doe / 146096) / 365
  let y := yoe + era * 400
  let doy := doe - (365 * yoe + yoe / 4 - yoe / 100)
  let mp := (5 * doy + 2) / 153
  let d := doy - (153 * mp + 2) / 5 + 1
  let m := if mp < 10 then mp + 3 else mp - 9
  (if m ≤ 2 then y + 1 else y, m, d)

/-- Year component of a timestamp. -/
def yearOfDT (t : Nat) : Nat := (civilFromDays (t / 86400)).1

/-- Month component of a timestamp. -/
def monthOfDT (t : Nat) : Nat := (civilFromDays (t / 86400)).2.1

/-- Day-of-month component of a timestamp. -/
def dayOfDT (t : Nat) : Nat := (civilFromDays (t / 86400)).2.2

/-- Python `datetime.weekday()`: Monday = 0 .. Sunday = 6
(1970-01-01 was a Thursday, weekday 3). -/
def weekdayOf (t : Nat) : Nat := (t / 86400 + 3) % 7

/-- `base.replace(hour=0, minute=0, second=0, microsecond=0)`. -/
def midnight (t : Nat) : Nat := t / 86400 * 86400

/-- `base.replace(hour=23, minute=59, second=59, microsecond=0)`. -/
def endOfDay (t : Nat) : Nat := midnight t + 86399

/-- Build a timestamp from civil date, validated the way Python
`datetime` construction validates (`dateutil` raises `ValueError` on an
out-of-range component, which callers turn into an unresolved date).
Years below 1970 are outside this model's timestamp range. -/
def mkValidDT (y m d tod : Nat) : Option Nat :=
  if 1970 ≤ y ∧ y ≤ 9999 ∧ 1 ≤ m ∧ m ≤ 12 ∧ 1 ≤ d ∧ d ≤ daysInMonth y m then
    some (daysFromCivil y m d * 86400 + tod)
  else none

/-! ## String utilities (models of Python `str` operations)

Implemented over the underlying character lists so that every definition
is fully computable by the kernel. -/

/-- Python `str.strip()`: drop leading and trailing whitespace. -/
def strTrim (s : String) : String :=
  String.mk ((s.data.dropWhile Char.isWhitespace).reverse.dropWhile
    Char.isWhitespace).reverse

/-- Python `str.lower()`. -/
def strLower (s : String) : String := String.mk (s.data.map Char.toLower)

/-- Python `str.startswith(pre)`. -/
def strStartsWith (s pre : String) : Bool := pre.data.isPrefixOf s.data

/-- Python slicing `s[n:]` over characters. -/
def strDropChars (s : String) (n : Nat) : String := String.mk (s.data.drop n)

/-- `int(token)` for all-digit tokens (`None` otherwise). -/
def strToNat? (s : String) : Option Nat :=
  if !s.data.isEmpty && s.data.all Char.isDigit then
    some (s.data.foldl (fun a c => a * 10 + (c.toNat - 48)) 0)
  else none

/-- Word character in the sense of the regex `\b` boundary: `[A-Za-z0-9_]`. -/
def isWordChar (c : Char) : Bool := c.isAlphanum || c == '_'

/-- Case-insensitive literal match of `pat` at the head of `cs`; returns the
remainder on success. -/
def matchCI : List Char → List Char → Option (List Char)
  | [], rest => some rest
  | _ :: _, [] => none
  | p :: ps, c :: cs => if c.toLower == p then matchCI ps cs else none

/-- A `\b` boundary holds after a word-character run when the remainder is
empty or starts with a non-word character. -/
def boundaryAfter : List Char → Bool
  | [] => true
  | c :: _ => !isWordChar c

/-- The alternatives generated by `MONTH_RE`
(`Jan(?:uary)?`, ..., `Dec(?:ember)?`), lowercased. -/
def monthForms : List (String × Nat) :=
  [("january", 1), ("jan", 1), ("february", 2), ("feb", 2),
   ("march", 3), ("mar", 3), ("april", 4), ("apr", 4), ("may", 5),
   ("june", 6), ("jun", 6), ("july", 7), ("jul", 7),
   ("august", 8), ("aug", 8), ("september", 9), ("sep", 9),
   ("october", 10), ("oct", 10), ("november", 11), ("nov", 11),
   ("december", 12), ("dec", 12)]

/-- Does some month alternative match (case-insensitively) at this position,
with a `\b` boundary after it? -/
def monthAt (cs : List Char) : Bool :=
  monthForms.any fun mf =>
    match matchCI mf.1.data cs with
    | some rest => boundaryAfter rest
    | none => false

/-- `MONTH_RE.search`: scan every position whose preceding character is not a
word character (the leading `\b`; month names start with a letter). -/
def monthSearchAux : Bool → List Char → Bool
  | _, [] => false
  | prevW, c :: cs => (!prevW && monthAt (c :: cs)) || monthSearchAux (isWordChar c) cs

/-- Model of `MONTH_RE.search(t)` returning whether a match exists. -/
def monthSearch (s : String) : Bool := monthSearchAux false s.data

/-- Take exactly `n` decimal digits, returning the remainder. -/
def takeDigits : Nat → List Char → Option (List Char)
  | 0, rest => some rest
  | _ + 1, [] => none
  | n + 1, c :: cs => if c.isDigit then takeDigits n cs else none

/-- Separator class (slash or dash) of `DATEISH_RE`. -/
def isDateSep (c : Char) : Bool := c == '/' || c == '-'

/-- `DATEISH_RE` body at one position: one or two digits, a slash-or-dash
separator, one or two digits, then optionally a separator and two to four
digits, ending at a word boundary; regex backtracking is modelled by trying
every quantifier choice. -/
def dateishAt (cs : List Char) : Bool :=
  [2, 1].any fun n1 =>
    match takeDigits n1 cs with
    | none => false
    | some r1 =>
      match r1 with
      | [] => false
      | c :: r2 =>
        isDateSep c &&
        ([2, 1].any fun n2 =>
          match takeDigits n2 r2 with
          | none => false
          | some r3 =>
            boundaryAfter r3 ||
            (match r3 with
             | [] => false
             | c2 :: r4 =>
               isDateSep c2 &&
               ([4, 3, 2].any fun n3 =>
                 match takeDigits n3 r4 with
                 | none => false
                 | some r5 => boundaryAfter r5)))

/-- Scanner with the leading `\b` (the pattern starts with a digit). -/
def dateishSearchAux : Bool → List Char → Bool
  | _, [] => false
  | prevW, c :: cs => (!prevW && dateishAt (c :: cs)) || dateishSearchAux (isWordChar c) cs

/-- Model of `DATEISH_RE.search(t)`. -/
def dateishSearch (s : String) : Bool := dateishSearchAux false s.data

/-- `\b\d{4}\b` at one position. -/
def year4At (cs : List Char) : Bool :=
  match takeDigits 4 cs with
  | some rest => boundaryAfter rest
  | none => false

/-- Scanner for `re.search(r"\b\d{4}\b", t)`. -/
def year4SearchAux : Bool → List Char → Bool
  | _, [] => false
  | prevW, c :: cs => (!prevW && year4At (c :: cs)) || year4SearchAux (isWordChar c) cs

/-- Model of `re.search(r"\b\d{4}\b", t)`. -/
def year4Search (s : String) : Bool := year4SearchAux false s.data

/-! ## Date Normalizer: model of `dateutil.parser.parse` -/

/-- Lowercased maximal alphanumeric runs of the text (the token stream the
fuzzy date parser consumes; punctuation and spaces separate tokens). -/
def tokensAux : List Char → List Char → List String
  | [], acc => if acc.isEmpty then [] else [String.mk acc.reverse]
  | c :: cs, acc =>
    if c.isAlphanum then tokensAux cs (c.toLower :: acc)
    else if acc.isEmpty then tokensAux cs []
    else String.mk acc.reverse :: tokensAux cs []

/-- Tokenize a string for fuzzy date parsing. -/
def fuzzyTokens (s : String) : List String := tokensAux s.data []

/-- A token that is exactly four decimal digits (read as a year). -/
def isYear4Token (t : String) : Bool := t.length == 4 && t.data.all Char.isDigit

/-- First token that names a month, with the following tokens. -/
def findMonthToken : List String → Option (Nat × List String)
  | [] => none
  | t :: rest =>
    match (monthForms.find? fun mf => mf.1 == t) with
    | some mf => some (mf.2, rest)
    | none => findMonthToken rest

/--
Modelled from the library: `dateutil.parser.parse(text, fuzzy=True,
default=now)` over the fragment of inputs this development evaluates:

* a month name possibly surrounded by arbitrary (skipped) tokens, optionally
  followed by a 1-2 digit day-of-month token (1..31), optionally followed by
  a four-digit year token — unparsed components (year / day / time of day)
  are filled in from `default` (= `now_local()` in `safe_parse_date`);
* otherwise a bare four-digit year token, with month, day and time of day
  taken from `default`.

Other layouts (e.g. purely numeric `m/d/y` dates) are modelled as
unresolvable.  Crucially — and faithfully to the library — a missing year is
filled with the **default's own year**: there is no adjustment that would
move a past result into the future.  An invalid civil date raises
`ValueError` in Python, i.e. yields `none` here (`mkValidDT`).
-/
def dtparse_fuzzy (text : String) (now : Nat) : Option Nat :=
  match findMonthToken (fuzzyTokens text) with
  | some (m, rest) =>
    match rest with
    | [] => mkValidDT (yearOfDT now) m (dayOfDT now) (now % 86400)
    | t :: rest2 =>
      match strToNat? t with
      | none => mkValidDT (yearOfDT now) m (dayOfDT now) (now % 86400)
      | some v =>
        if 1 ≤ v && v ≤ 31 && t.length ≤ 2 then
          match rest2 with
          | y :: _ =>
            if isYear4Token y then
              match strToNat? y with
              | some yv => mkValidDT yv m v (now % 86400)
              | none => mkValidDT (yearOfDT now) m v (now % 86400)
            else mkValidDT (yearOfDT now) m v (now % 86400)
          | [] => mkValidDT (yearOfDT now) m v (now % 86400)
        else if isYear4Token t then mkValidDT v m (dayOfDT now) (now % 86400)
        else mkValidDT (yearOfDT now) m (dayOfDT now) (now % 86400)
  | none =>
    match (fuzzyTokens text).find? isYear4Token with
    | some t =>
      match strToNat? t with
      | some y => mkValidDT y (monthOfDT now) (dayOfDT now) (now % 86400)
      | none => none
    | none => none

/-- `safe_parse_date(text)` from the source: strip, gate on the three
date-ish regexes, then permissive parsing with `default=now_local()`;
any parse failure yields `None`.  The ambient `now_local()` is the explicit
`now` parameter. -/
def safe_parse_date (text : String) (now : Nat) : Option Nat :=
  let t := strTrim text
  if t = "" then none
  else if !(monthSearch t || dateishSearch t || year4Search t) then none
  else dtparse_fuzzy t now

/-- Read exactly `n` digits as a number, returning value and remainder. -/
def readDigits (n : Nat) (cs : List Char) : Option (Nat × List Char) :=
  match takeDigits n cs with
  | none => none
  | some rest =>
    let ds := cs.take n
    some (ds.foldl (fun acc c => acc * 10 + (c.toNat - 48)) 0, rest)

/--
Modelled from the library: `dateutil.parser.parse(start_raw)` (no fuzz, no
explicit default) over the fragment of inputs this development evaluates:
ISO-8601 timestamps `YYYY-MM-DD` (time 00:00:00) and
`YYYY-MM-DDTHH:MM:SS`.  Other layouts are modelled as unresolvable and a
component out of range raises (`none`).
-/
def dtparse_full (s : String) : Option Nat :=
  match readDigits 4 s.data with
  | none => none
  | some (y, r1) =>
    match r1 with
    | '-' :: r2 =>
      match readDigits 2 r2 with
      | none => none
      | some (m, r3) =>
        match r3 with
        | '-' :: r4 =>
          match readDigits 2 r4 with
          | none => none
          | some (d, r5) =>
            match r5 with
            | [] => mkValidDT y m d 0
            | 'T' :: r6 =>
              match readDigits 2 r6 with
              | none => none
              | some (hh, r7) =>
                match r7 with
                | ':' :: r8 =>
                  match readDigits 2 r8 with
                  | none => none
                  | some (mi, r9) =>
                    match r9 with
                    | ':' :: r10 =>
                      match readDigits 2 r10 with
                      | none => none
                      | some (ss, r11) =>
                        if r11.isEmpty && hh ≤ 23 && mi ≤ 59 && ss ≤ 59 then
                          match mkValidDT y m d 0 with
                          | some base => some (base + hh * 3600 + mi * 60 + ss)
                          | none => none
                        else none
                    | _ => none
                | _ => none
            | _ => none
        | _ => none
    | _ => none

/-! ## Data model -/

/-- Zero-pad a number to two decimal digits. -/
def pad2 (n : Nat) : String := if n < 10 then "0" ++ toString n else toString n

/-- Zero-pad a number to four decimal digits. -/
def pad4 (n : Nat) : String :=
  if n < 10 then "000" ++ toString n
  else if n < 100 then "00" ++ toString n
  else if n < 1000 then "0" ++ toString n
  else toString n

/-- Python `datetime.isoformat()` at second resolution
(`YYYY-MM-DDTHH:MM:SS`; the code zeroes microseconds on every path that
builds these values). -/
def isoStr (t : Nat) : String :=
  let c := civilFromDays (t / 86400)
  let tod := t % 86400
  pad4 c.1 ++ "-" ++ pad2 c.2.1 ++ "-" ++ pad2 c.2.2 ++ "T" ++
    pad2 (tod / 3600) ++ ":" ++ pad2 (tod % 3600 / 60) ++ ":" ++ pad2 (tod % 60)

/-- The event dictionary built by `normalize_event`: `start` holds the
timestamp (`None` allowed), rendered as its ISO string where the source
stores/compares strings. -/
structure Ev where
  title : String
  start : Option Nat
  date_text : String
  url : String
  source : String
  category : String
deriving DecidableEq, Repr

/-- `normalize_event(title, start, url, source, category, raw_date_text)`. -/
def normalize_event (title : String) (start : Option Nat) (url : String)
    (source : String) (category : String) (raw_date_text : String := "") : Ev :=
  { title := strTrim title
    start := start
    date_text := strTrim raw_date_text
    url := url
    source := source
    category := category }

/-- The `start` dictionary entry as Python renders it inside the key
f-string: the ISO string, or `"None"` when the start is unresolved. -/
def startStr : Option Nat → String
  | none => "None"
  | some d => isoStr d

/-- `event_key(e)`: the pipe-joined dedupe key
`source|title|start(ISO)|url`. -/
def event_key (e : Ev) : String :=
  e.source ++ "|" ++ e.title ++ "|" ++ startStr e.start ++ "|" ++ e.url

/-! ## Deduplication (the `uniq` dict pattern)

`uniq = {}` then `uniq[event_key(e)] = e` over the list, then
`list(uniq.values())`: a Python dict keeps a key at its first-insertion
position and overwrites the value in place (last write wins). -/

/-- Insert into an insertion-ordered association list the way a Python dict
assignment does: overwrite in place if the key exists, else append. -/
def updateAssoc (k : String) (e : Ev) : List (String × Ev) → List (String × Ev)
  | [] => [(k, e)]
  | (k0, e0) :: rest =>
    if k0 = k then (k0, e) :: rest else (k0, e0) :: updateAssoc k e rest

/-- Fold a list of events into the `uniq` dict. -/
def dedupeFold : List (String × Ev) → List Ev → List (String × Ev)
  | acc, [] => acc
  | acc, e :: rest => dedupeFold (updateAssoc (event_key e) e acc) rest

/-- `list(uniq.values())` after inserting every event keyed by
`event_key`. -/
def dedupe (l : List Ev) : List Ev := (dedupeFold [] l).map Prod.snd

/-! ## Structured Extractor (`parse_jsonld_events`) -/

/-- JSON values as `json.loads` produces them (numbers restricted to
integers; the documents handled here carry no fractional numbers). -/
inductive Json where
  | null
  | bool (b : Bool)
  | num (n : Int)
  | str (s : String)
  | arr (xs : List Json)
  | obj (kvs : List (String × Json))
deriving Repr

/-- Python dict lookup over the parsed object: `json.loads` keeps the last
of duplicate keys, so look up the last binding. -/
def jlookup (kvs : List (String × Json)) (k : String) : Option Json :=
  match kvs.reverse.find? (fun kv => kv.1 == k) with
  | some kv => some kv.2
  | none => none

/-- Python truthiness of a JSON value. -/
def jsonTruthy : Json → Bool
  | .null => false
  | .bool b => b
  | .num n => n != 0
  | .str s => s ≠ ""
  | .arr xs => !xs.isEmpty
  | .obj kvs => !kvs.isEmpty

/-- `node.get(k)` with Python `None` for a missing key. -/
def jget (kvs : List (String × Json)) (k : String) : Json :=
  (jlookup kvs k).getD .null

/-- Python `a or b` on JSON values. -/
def pyOr (a b : Json) : Json := if jsonTruthy a then a else b

/-- Python `str()` of a JSON value, used only to compare against the literal
`"event"`; container renderings are approximated (their text contains
brackets and never equals a bare word). -/
def pyStr : Json → String
  | .null => "None"
  | .bool b => if b then "True" else "False"
  | .num n => toString n
  | .str s => s
  | .arr _ => "[...]"
  | .obj _ => "\x7b...\x7d"

/-- The `@type` test: `any(str(x).lower() == "event" for x in t)` for a
list, else `str(t).lower() == "event"`. -/
def isEventType (t : Json) : Bool :=
  match t with
  | .arr xs => xs.any fun x => strLower (pyStr x) == "event"
  | v => strLower (pyStr v) == "event"

/-- The shape flattening: a parsed block may be a list of nodes, a dict with
an `@graph` list, a plain dict, or anything else (zero nodes). -/
def flattenNodes : Json → List Json
  | .arr xs => xs
  | .obj kvs =>
    match jlookup kvs "@graph" with
    | some (.arr g) => g
    | _ => [.obj kvs]
  | _ => []

/--
Process one kept Event node (the body after the `@type` filter).  Faithful
to the source's partial operations: `title.strip()` and
`raw_date_text.strip()` inside `normalize_event` raise `AttributeError`
on a non-string truthy value, which escapes `parse_jsonld_events` and is
caught per-URL in `scrape_source`; that exception path is the `Except.error`
case.  `dtparser.parse(start_raw)` sits inside its own try/except, so a
non-string or unparseable `startDate` only nulls the start.
-/
def processEventNode (kvs : List (String × Json)) (source category : String) :
    Except String (Option Ev) :=
  let titleJ := pyOr (jget kvs "name") (.str "")
  let startJ := pyOr (jget kvs "startDate") (.str "")
  let urlJ := pyOr (jget kvs "url") (.str "")
  let start_dt : Option Nat :=
    match startJ with
    | .str s => if s ≠ "" then dtparse_full s else none
    | _ => none
  if jsonTruthy titleJ && jsonTruthy urlJ then
    match titleJ, startJ with
    | .str ts, .str ss =>
      .ok (some (normalize_event ts start_dt (pyStr urlJ) source category ss))
    | _, _ => .error "AttributeError: strip"
  else
    .ok none

/-- Process the node list of one parsed script block. -/
def processNodes (nodes : List Json) (source category : String) :
    Except String (List Ev) :=
  match nodes with
  | [] => .ok []
  | node :: rest =>
    match node with
    | .obj kvs =>
      let t := pyOr (jget kvs "@type") (jget kvs "type")
      if isEventType t then
        match processEventNode kvs source category with
        | .error msg => .error msg
        | .ok none => processNodes rest source category
        | .ok (some e) =>
          match processNodes rest source category with
          | .error msg => .error msg
          | .ok es => .ok (e :: es)
      else processNodes rest source category
    | _ => processNodes rest source category

/--
`parse_jsonld_events(html, source, category)`.  The input is the list of
`json.loads` outcomes of the `application/ld+json` script blocks found in
the page (`none` models an empty or unparseable block, which the source
skips with `continue`).  An exception while building an event (non-string
`name` or `startDate` on a kept node) aborts the whole call — the
`Except.error` case — and is caught by `scrape_source`'s per-URL handler.
-/
def parse_jsonld_events (scripts : List (Option Json)) (source category : String) :
    Except String (List Ev) :=
  match scripts with
  | [] => .ok []
  | none :: rest => parse_jsonld_events rest source category
  | some data :: rest =>
    match processNodes (flattenNodes data) source category with
    | .error msg => .error msg
    | .ok es =>
      match parse_jsonld_events rest source category with
      | .error msg => .error msg
      | .ok es2 => .ok (es ++ es2)

/-! ## Heuristic Extractor (`parse_basic_event_links`) -/

/-- An anchor element carrying an `href` attribute (the `find("a",
href=True)` candidates): its visible text as `get_text(" ", strip=True)`
yields it, and the stripped `href` value. -/
structure Anchor where
  text : String
  href : String
deriving DecidableEq, Repr

/-- A block-level container (`article`/`li`/`div`/`section`) as
BeautifulSoup exposes it: its embedded `href`-carrying anchors in document
order, and its full visible text (`get_text(" ", strip=True)`). -/
structure Block where
  anchors : List Anchor
  text : String
deriving DecidableEq, Repr

/-- Drop trailing slashes: Python `base_url.rstrip("/")`. -/
def rstripSlash (s : String) : String :=
  String.mk (s.data.reverse.dropWhile (· == '/')).reverse

/-- Drop leading slashes: Python `href.lstrip("/")`. -/
def lstripSlash (s : String) : String := String.mk (s.data.dropWhile (· == '/'))

/-- The absolute-URL resolution of the fallback parser: root-relative,
absolute, or bare-relative `href` against `base_url`. -/
def absoluteUrl (base_url href : String) : String :=
  if strStartsWith href "/" then rstripSlash base_url ++ href
  else if strStartsWith href "http" then href
  else rstripSlash base_url ++ "/" ++ lstripSlash href

/--
`parse_basic_event_links(html, base_url, source, category)`: scan up to
2000 block-level containers; in each, `block.find("a", href=True)` picks the
**first** anchor (if any); reject empty or shorter-than-4-character link
text; resolve the href; attempt `safe_parse_date` on the container's full
text; de-duplicate by `event_key` before returning.  The ambient
`now_local()` consulted by `safe_parse_date` is the explicit `now`.
-/
def parse_basic_event_links (blocks : List Block) (base_url : String)
    (source category : String) (now : Nat) : List Ev :=
  let out := (blocks.take 2000).filterMap fun block =>
    match block.anchors.head? with
    | none => none
    | some a =>
      let title := a.text
      let href := strTrim a.href
      if title = "" ∨ title.length < 4 then none
      else
        let url := absoluteUrl base_url href
        match safe_parse_date block.text now with
        | none => none
        | some start_dt =>
          some (normalize_event title (some start_dt) url source category block.text)
  dedupe out

/-! ## Per-source scraping and the cache -/

/-- A fetched page at the boundary this model needs: the `json.loads`
outcomes of its JSON-LD script blocks, and its block-level containers. -/
structure Page where
  scripts : List (Option Json)
  blocks : List Block

/-- One configured source (`SOURCES` entries). -/
structure SourceCfg where
  name : String
  category : String
  urls : List String
deriving DecidableEq, Repr

/-- The configured `SOURCES` list. -/
def SOURCES : List SourceCfg :=
  [{ name := "The Adelphia", category := "music",
     urls := ["https://www.theadelphia.com/events/"] },
   { name := "Greater Parkersburg", category := "community",
     urls := ["https://www.greaterparkersburg.com/events/"] },
   { name := "Parkersburg Art Center", category := "arts",
     urls := ["http://parkersburgartcenter.org/exhibits",
              "https://www.parkersburgartcenter.org/upcomingcurrent-events",
              "https://www.parkersburgartcenter.org/adult-and-teen-classes",
              "https://www.parkersburgartcenter.org/children-and-family-classes",
              "https://www.parkersburgartcenter.org/camp-creativity"] }]

/-- Everything up to the first `/` (the host part of the base-URL regex). -/
def takeUntilSlash (s : String) : String := String.mk (s.data.takeWhile (· != '/'))

/-- The base URL computed in `scrape_source`:
`re.match(r"^(https?" ++ "://[^/]+)", url)`, group 1 if it matches (scheme
plus a non-empty host), else the URL itself. -/
def baseUrlOf (url : String) : String :=
  if strStartsWith url "http://" && takeUntilSlash (strDropChars url 7) ≠ "" then
    "http://" ++ takeUntilSlash (strDropChars url 7)
  else if strStartsWith url "https://" && takeUntilSlash (strDropChars url 8) ≠ "" then
    "https://" ++ takeUntilSlash (strDropChars url 8)
  else url

/-- The per-URL try-block body after a successful fetch: JSON-LD first,
heuristic fallback only when the structured pass returned zero events. -/
def processPage (page : Page) (url : String) (cfg : SourceCfg) (now : Nat) :
    Except String (List Ev) :=
  match parse_jsonld_events page.scripts cfg.name cfg.category with
  | .error msg => .error msg
  | .ok got =>
    if got.isEmpty then
      .ok (parse_basic_event_links page.blocks (baseUrlOf url) cfg.name cfg.category now)
    else .ok got

/-- The diagnostic recorded on a per-URL failure:
`f"{name} ({url}): {message}"`. -/
def diagOf (name url msg : String) : String := name ++ " (" ++ url ++ "): " ++ msg

/-- One loop step of `scrape_source`: fetch (the oracle `o`), process, and
either extend the events or record a diagnostic — any exception inside the
per-URL `try` (fetch failure or a processing error) is isolated here. -/
def scrapeStep (cfg : SourceCfg) (o : String → Except String Page) (now : Nat)
    (acc : List Ev × List String) (url : String) : List Ev × List String :=
  match o url with
  | .error msg => (acc.1, acc.2 ++ [diagOf cfg.name url msg])
  | .ok page =>
    match processPage page url cfg now with
    | .error msg => (acc.1, acc.2 ++ [diagOf cfg.name url msg])
    | .ok got => (acc.1 ++ got, acc.2)

/-- `scrape_source(source_cfg)`: loop over the source's URLs, then de-dupe
across URLs.  Fetching is the oracle `o : url → Except String Page`
(`fetch_html` raising on network error, non-2xx or timeout). -/
def scrape_source (cfg : SourceCfg) (o : String → Except String Page) (now : Nat) :
    List Ev × List String :=
  let r := cfg.urls.foldl (scrapeStep cfg o now) ([], [])
  (dedupe r.1, r.2)

/-- The process-wide cache: `ts` (epoch seconds of the last refresh),
`events`, `errors`. -/
structure Cache where
  ts : Nat
  events : List Ev
  errors : List String
deriving DecidableEq, Repr

/-- The initial cache value from the source. -/
def initialCache : Cache := { ts := 0, events := [], errors := [] }

/-- The freshness guard of `refresh_cache_if_needed`:
`not force and (now_ts - CACHE["ts"] < CACHE_TTL_SECONDS) and CACHE["events"]`
(the last conjunct is Python truthiness of the events list). -/
def cacheFresh (c : Cache) (force : Bool) (now_ts : Nat) : Bool :=
  !force && decide (now_ts - c.ts < CACHE_TTL_SECONDS) && !c.events.isEmpty

/-- The sort key: the source sorts by `x.get("start") or ""`, the ISO
string.  Every event reaching the sort carries a `start`, and the
fixed-width ISO rendering of four-digit-year timestamps is ordered exactly
like the underlying timestamp, so the key is modelled as the timestamp. -/
def sortKey (e : Ev) : Nat := (e.start).getD 0

/-- Insert into a list sorted by `sortKey` (before strictly larger keys,
after smaller-or-equal ones: a stable insertion). -/
def insertByStart (e : Ev) : List Ev → List Ev
  | [] => [e]
  | x :: xs =>
    if sortKey x < sortKey e then x :: insertByStart e xs else e :: x :: xs

/-- Stable sort by `start` — extensionally equal to the stable
`list.sort(key=...)` of the source. -/
def sortByStart : List Ev → List Ev
  | [] => []
  | x :: xs => insertByStart x (sortByStart xs)

/-- The keep-only-upcoming filter of the refresh: an event is kept when its
start parses back and `dt >= now_dt - timedelta(hours=6)` (events without a
start, or with an unparseable one, are skipped). -/
def upcomingKeep (now_dt : Nat) (e : Ev) : Bool :=
  match e.start with
  | some d => decide (now_dt - 21600 ≤ d)
  | none => false

/--
`refresh_cache_if_needed(force)`.  The module globals are explicit
parameters: `sources` (= `SOURCES`), the current cache value, the clock
readings `now_ts` (`time.time()`) and `now_dt` (`now_local()`), and the
fetch oracle `o`.  Returns the cache after the call: unchanged when the
freshness guard passes, otherwise the atomically-replaced snapshot.
-/
def refresh_cache_if_needed (sources : List SourceCfg) (c : Cache) (force : Bool)
    (now_ts : Nat) (now_dt : Nat) (o : String → Except String Page) : Cache :=
  if cacheFresh c force now_ts then c
  else
    let scraped := sources.map fun src => scrape_source src o now_dt
    let all_events := (scraped.map Prod.fst).flatten
    let all_errors := (scraped.map Prod.snd).flatten
    let upcoming := all_events.filter (upcomingKeep now_dt)
    { ts := now_ts, events := sortByStart upcoming, errors := all_errors }

/-! ## Selection and rendering (`Query Engine`) -/

/-- `weekend_range(base)`: the next Saturday (Python `(5 - weekday) % 7`
days ahead, written with a non-negative minuend — the Python `%` of a
negative number is non-negative) at 00:00:00 through the following day at
23:59:59. -/
def weekend_range (base : Nat) : Nat × Nat :=
  (midnight (base + ((12 - weekdayOf base) % 7) * 86400),
   midnight (base + ((12 - weekdayOf base) % 7) * 86400) + 86400 + 86399)

/-- `select_today(events, base)`: events whose start parses and falls in
the base day, first 6. -/
def select_today (events : List Ev) (base : Nat) : List Ev :=
  let s := midnight base
  let e := endOfDay base
  (events.filter fun ev =>
    match ev.start with
    | some d => decide (s ≤ d) && decide (d ≤ e)
    | none => false).take 6

/-- `select_weekend(events, base)`: events whose start parses and falls in
`weekend_range(base)`, first 8. -/
def select_weekend (events : List Ev) (base : Nat) : List Ev :=
  let r := weekend_range base
  (events.filter fun ev =>
    match ev.start with
    | some d => decide (r.1 ≤ d) && decide (d ≤ r.2)
    | none => false).take 8

/-- Modelled from the spec: the weekend window as §4.7 words it — "the
upcoming Saturday 00:00:00 through Sunday 23:59:59 (if today is itself
Saturday/Sunday, that same weekend is used)".  On Sunday this is the
weekend that started the day before. -/
def spec_weekend_range (base : Nat) : Nat × Nat :=
  ((if weekdayOf base = 6 then midnight base - 86400
    else midnight base + (5 - weekdayOf base) * 86400),
   (if weekdayOf base = 6 then midnight base - 86400
    else midnight base + (5 - weekdayOf base) * 86400) + 86400 + 86399)

/-- Weekday abbreviations for `strftime("%a")`, indexed by Python
`weekday()` (Monday 0). -/
def weekdayAbbrev (w : Nat) : String :=
  (["Mon", "Tue", "Wed", "Thu", "Fri", "Sat", "Sun"].getD w "")

/-- Month abbreviations for `strftime("%b")` (1-based). -/
def monthAbbrev (m : Nat) : String :=
  (["", "Jan", "Feb", "Mar", "Apr", "May", "Jun", "Jul", "Aug", "Sep",
    "Oct", "Nov", "Dec"].getD m "")

/-- `dt.strftime("%a %b %-d, %-I:%M %p")`. -/
def strftimeWhen (d : Nat) : String :=
  let c := civilFromDays (d / 86400)
  let tod := d % 86400
  let h := tod / 3600
  let h12 := if h % 12 = 0 then 12 else h % 12
  let ampm := if h < 12 then "AM" else "PM"
  weekdayAbbrev (weekdayOf d) ++ " " ++ monthAbbrev c.2.1 ++ " " ++
    toString c.2.2 ++ ", " ++ toString h12 ++ ":" ++ pad2 (tod % 3600 / 60) ++
    " " ++ ampm

/-- `format_event_line(e)`: bullet, title, formatted start (or `TBD` when
the start is unresolved), source. -/
def format_event_line (e : Ev) : String :=
  let when := match e.start with
    | some d => strftimeWhen d
    | none => "TBD"
  "• " ++ strTrim e.title ++ " — " ++ when ++ " (" ++ e.source ++ ")"

/-- Python `"\n".join(lines)`. -/
def joinLines : List String → String
  | [] => ""
  | [a] => a
  | a :: rest => a ++ "\n" ++ joinLines rest

/-- `EL_NAME` from the source. -/
def EL_NAME : String := "El"

/-- `welcome_message(events)`: the composite greeting combining the today
and weekend selections.  The ambient `now_local()` is the explicit `now`. -/
def welcome_message (events : List Ev) (now : Nat) : String :=
  let today := select_today events now
  let weekend := select_weekend events now
  let l1 := ["Hi, I’m " ++ EL_NAME ++ " — your insider for everything happening around the MOV.\n",
             "✨ **Today’s Highlights**"]
  let l2 := if !today.isEmpty then today.map format_event_line
            else ["• No solid “today” hits found yet — ask me for *this weekend* or *live music* and I’ll pull what’s coming up."]
  let l3 := ["\n📅 **This Weekend**"]
  let l4 := if !weekend.isEmpty then weekend.map format_event_line
            else ["• Weekend list is still warming up — try: “music this weekend” or “family events this weekend”"]
  let l5 := ["\nTell me what kind of vibe you’re looking for: **music, family, art, classes, shows, date night, free stuff**…"]
  joinLines (l1 ++ l2 ++ l3 ++ l4 ++ l5)

/-- Python `needle in haystack` on strings: contiguous substring test. -/
def containsSub (hay pat : String) : Bool :=
  (List.range (hay.data.length + 1)).any fun i =>
    pat.data.isPrefixOf (hay.data.drop i)

/-- `answer_query(user_text, events)`: keyword intent classification, first
match wins, then selection and rendering.  The ambient `now_local()` is the
explicit `now`. -/
def answer_query (user_text : String) (events : List Ev) (now : Nat) : String :=
  let t := strLower user_text
  if containsSub t "today" then
    let picks := select_today events now
    if picks.isEmpty then
      "I’m not seeing strong “today” items yet from the sources — want *this weekend* or *music*?"
    else "✨ **Today**\n" ++ joinLines (picks.map format_event_line)
  else if containsSub t "weekend" then
    let picks := select_weekend events now
    if picks.isEmpty then
      "Weekend is quiet in the feed right now — want me to search *music* or *art classes* instead?"
    else "📅 **This Weekend**\n" ++ joinLines (picks.map format_event_line)
  else if ["art", "exhibit", "gallery", "class", "camp"].any (containsSub t) then
    let picks := events.filter fun e => e.source == "Parkersburg Art Center"
    if picks.isEmpty then "I’m not pulling Art Center items yet — I’ll keep refreshing the feed."
    else "🎨 **Parkersburg Art Center**\n" ++ joinLines ((picks.take 10).map format_event_line)
  else if ["music", "band", "concert", "live"].any (containsSub t) then
    let picks := events.filter fun e => ["The Adelphia"].contains e.source
    if picks.isEmpty then "I’m not seeing music items yet — I’ll keep refreshing."
    else "🎸 **Live Music / Adelphia**\n" ++ joinLines ((picks.take 10).map format_event_line)
  else
    "Tell me: **today**, **this weekend**, **music**, **art**, **classes**, **family**, or **date night** — and I’ll pull the best matches."

/-- `handle_chat()` after the cache refresh: the message-handling contract.
The transport-level rejection (HTTP 400 "Message is required") is the
`Except.error` case; every other outcome is a rendered string.  `events` is
the cache's event list at answer time. -/
def handle_chat (message : String) (events : List Ev) (now : Nat) :
    Except String String :=
  let msg := strTrim message
  if msg = "" then .error "Message is required"
  else if msg = "__WELCOME__" then .ok (welcome_message events now)
  else .ok (answer_query msg events now)

/-! ## Helper lemmas -/

/-- The keys of the insertion-ordered dict. -/
def keysOf (l : List (String × Ev)) : List String := l.map Prod.fst

theorem keysOf_updateAssoc_mem (k : String) (e : Ev) (acc : List (String × Ev))
    (h : k ∈ keysOf acc) : keysOf (updateAssoc k e acc) = keysOf acc := by
  induction acc with
  | nil => simp [keysOf] at h
  | cons p rest ih =>
    by_cases hk : p.1 = k
    · cases p with
      | mk k0 e0 => simp at hk; simp [updateAssoc, hk, keysOf]
    · have hmem : k ∈ keysOf rest := by
        simp [keysOf] at h
        rcases h with h | h
        · exact absurd h.symm hk
        · simpa [keysOf] using h
      cases p with
      | mk k0 e0 =>
        simp at hk
        simp only [updateAssoc, if_neg hk, keysOf, List.map_cons]
        rw [show keysOf (updateAssoc k e rest) = List.map Prod.fst (updateAssoc k e rest) from rfl] at ih
        rw [ih hmem]
        rfl

theorem keysOf_updateAssoc_not_mem (k : String) (e : Ev) (acc : List (String × Ev))
    (h : k ∉ keysOf acc) : updateAssoc k e acc = acc ++ [(k, e)] := by
  induction acc with
  | nil => simp [updateAssoc]
  | cons p rest ih =>
    have hk : p.1 ≠ k := by
      intro hc
      exact h (by simp [keysOf, hc])
    have hrest : k ∉ keysOf rest := by
      intro hc
      exact h (by simp [keysOf] at hc ⊢; exact Or.inr hc)
    simp [updateAssoc, hk, ih hrest]

theorem nodup_keysOf_updateAssoc (k : String) (e : Ev) (acc : List (String × Ev))
    (h : (keysOf acc).Nodup) : (keysOf (updateAssoc k e acc)).Nodup := by
  by_cases hm : k ∈ keysOf acc
  · rw [keysOf_updateAssoc_mem k e acc hm]; exact h
  · rw [keysOf_updateAssoc_not_mem k e acc hm]
    simp [keysOf]
    simpa [keysOf, List.nodup_append] using And.intro h (by simpa [keysOf] using hm)

theorem consistent_updateAssoc (k : String) (e : Ev) (acc : List (String × Ev))
    (hk : k = event_key e) (h : ∀ p ∈ acc, p.1 = event_key p.2) :
    ∀ p ∈ updateAssoc k e acc, p.1 = event_key p.2 := by
  induction acc with
  | nil =>
    intro p hp
    simp [updateAssoc] at hp
    subst hp
    simpa using hk
  | cons q rest ih =>
    cases q with
    | mk k0 e0 =>
      intro p hp
      by_cases hq : k0 = k
      · rw [updateAssoc, if_pos hq] at hp
        rcases List.mem_cons.mp hp with hp | hp
        · subst hp; simpa [hq] using hk
        · exact h p (List.mem_cons_of_mem _ hp)
      · rw [updateAssoc, if_neg hq] at hp
        rcases List.mem_cons.mp hp with hp | hp
        · subst hp; exact h (k0, e0) (by simp)
        · exact ih (fun r hr => h r (List.mem_cons_of_mem _ hr)) p hp

theorem nodup_keysOf_dedupeFold (l : List Ev) (acc : List (String × Ev))
    (h : (keysOf acc).Nodup) : (keysOf (dedupeFold acc l)).Nodup := by
  induction l generalizing acc with
  | nil => simpa [dedupeFold] using h
  | cons e rest ih =>
    simpa [dedupeFold] using ih _ (nodup_keysOf_updateAssoc (event_key e) e acc h)

theorem consistent_dedupeFold (l : List Ev) (acc : List (String × Ev))
    (h : ∀ p ∈ acc, p.1 = event_key p.2) :
    ∀ p ∈ dedupeFold acc l, p.1 = event_key p.2 := by
  induction l generalizing acc with
  | nil => simpa [dedupeFold] using h
  | cons e rest ih =>
    simpa [dedupeFold] using ih _ (consistent_updateAssoc (event_key e) e acc rfl h)

theorem dedupeFold_of_nodup (l : List Ev) (acc : List (String × Ev))
    (h : (keysOf acc ++ l.map event_key).Nodup) :
    dedupeFold acc l = acc ++ l.map fun e => (event_key e, e) := by
  induction l generalizing acc with
  | nil => simp [dedupeFold]
  | cons e rest ih =>
    have hmem : event_key e ∉ keysOf acc := by
      intro hc
      rw [List.nodup_append] at h
      exact h.2.2 hc (by simp)
    rw [dedupeFold, keysOf_updateAssoc_not_mem _ _ _ hmem]
    have h2 : (keysOf (acc ++ [(event_key e, e)]) ++ rest.map event_key).Nodup := by
      simp only [keysOf, List.map_append] at h ⊢
      simpa [List.nodup_append, List.append_assoc] using h
    rw [ih _ h2]
    simp

theorem map_event_key_dedupe (l : List Ev) :
    (dedupe l).map event_key = keysOf (dedupeFold [] l) := by
  have hcons := consistent_dedupeFold l [] (by simp)
  unfold dedupe keysOf
  rw [List.map_map]
  exact (List.map_congr_left fun p hp => (hcons p hp).symm)

theorem nodup_keys_dedupe (l : List Ev) : ((dedupe l).map event_key).Nodup := by
  rw [map_event_key_dedupe]
  exact nodup_keysOf_dedupeFold l [] (by simp [keysOf])

theorem dedupe_of_nodup_keys (l : List Ev) (h : (l.map event_key).Nodup) :
    dedupe l = l := by
  unfold dedupe
  rw [dedupeFold_of_nodup l [] (by simpa [keysOf] using h)]
  rw [List.nil_append, List.map_map]
  exact List.map_id l

/-! ### Sorting lemmas -/

theorem mem_insertByStart (e x : Ev) (l : List Ev) :
    x ∈ insertByStart e l ↔ x = e ∨ x ∈ l := by
  induction l with
  | nil => rw [insertByStart]; simp
  | cons y ys ih =>
    rw [insertByStart]
    by_cases h : sortKey y < sortKey e
    · rw [if_pos h]
      simp only [List.mem_cons, ih]
      tauto
    · rw [if_neg h]
      simp

theorem mem_sortByStart (x : Ev) (l : List Ev) :
    x ∈ sortByStart l ↔ x ∈ l := by
  induction l with
  | nil => simp [sortByStart]
  | cons y ys ih => simp [sortByStart, mem_insertByStart, ih]

theorem sorted_insertByStart (e : Ev) (l : List Ev)
    (h : l.Pairwise fun a b => sortKey a ≤ sortKey b) :
    (insertByStart e l).Pairwise fun a b => sortKey a ≤ sortKey b := by
  induction l with
  | nil => simp [insertByStart]
  | cons y ys ih =>
    rw [List.pairwise_cons] at h
    by_cases hlt : sortKey y < sortKey e
    · rw [insertByStart]
      simp only [hlt, if_true]
      rw [List.pairwise_cons]
      constructor
      · intro a ha
        rw [mem_insertByStart] at ha
        rcases ha with ha | ha
        · subst ha; exact Nat.le_of_lt hlt
        · exact h.1 a ha
      · exact ih h.2
    · rw [insertByStart]
      simp only [hlt, if_false]
      rw [List.pairwise_cons]
      refine ⟨?_, List.Pairwise.cons h.1 h.2⟩
      intro a ha
      simp at ha
      rcases ha with ha | ha
      · subst ha; exact Nat.le_of_not_lt hlt
      · exact Nat.le_trans (Nat.le_of_not_lt hlt) (h.1 a ha)

theorem sorted_sortByStart (l : List Ev) :
    (sortByStart l).Pairwise fun a b => sortKey a ≤ sortKey b := by
  induction l with
  | nil => simp [sortByStart]
  | cons y ys ih => exact sorted_insertByStart y _ ih

/-! ### String non-emptiness helpers -/

theorem ne_empty_of_length_pos (s : String) (h : 0 < s.length) : s ≠ "" := by
  intro hc
  rw [hc] at h
  simp at h

theorem append_ne_empty (a b : String) (h : 0 < a.length) : a ++ b ≠ "" := by
  apply ne_empty_of_length_pos
  rw [String.length_append]
  omega

/-! ## Claim theorems -/

/-- Claim C7 (confirmed): the deduplicator, keyed by
`source|title|start(ISO)|url` with last-write-wins on key collision, is
idempotent — `dedupe (dedupe x) = dedupe x` — and no two events in its
output share the same key. -/
theorem c7_dedupe_idempotent_and_unique (x : List Ev) :
    dedupe (dedupe x) = dedupe x ∧ ((dedupe x).map event_key).Nodup :=
  ⟨dedupe_of_nodup_keys _ (nodup_keys_dedupe x), nodup_keys_dedupe x⟩

/-- Claim C10 (confirmed): `select_today` and `select_weekend` return
order-preserving subsequences of their input (sublists), of length at most
6 and 8 respectively, and both preserve ascending-by-start sortedness. -/
theorem c10_selection_sublist_capped (events : List Ev) (base : Nat) :
    List.Sublist (select_today events base) events
    ∧ (select_today events base).length ≤ 6
    ∧ List.Sublist (select_weekend events base) events
    ∧ (select_weekend events base).length ≤ 8
    ∧ (events.Pairwise (fun a b => sortKey a ≤ sortKey b) →
        (select_today events base).Pairwise (fun a b => sortKey a ≤ sortKey b)
        ∧ (select_weekend events base).Pairwise (fun a b => sortKey a ≤ sortKey b)) := by
  have ht : List.Sublist (select_today events base) events :=
    List.Sublist.trans (List.take_sublist _ _) (List.filter_sublist _)
  have hw : List.Sublist (select_weekend events base) events :=
    List.Sublist.trans (List.take_sublist _ _) (List.filter_sublist _)
  refine ⟨ht, List.length_take_le _ _, hw, List.length_take_le _ _, ?_⟩
  intro hs
  exact ⟨List.Pairwise.sublist ht hs, List.Pairwise.sublist hw hs⟩

/-- Concrete instantiation of `c10_selection_sublist_capped`, discharging
its sortedness hypothesis on a two-event cache. -/
theorem c10_selection_sublist_capped_witness :
    (select_today
        [{ title := "A", start := some 1000, date_text := "", url := "u",
           source := "S", category := "m" },
         { title := "B", start := some 2000, date_text := "", url := "v",
           source := "S", category := "m" }] 500).Pairwise
      (fun a b => sortKey a ≤ sortKey b)
    ∧ (select_weekend
        [{ title := "A", start := some 1000, date_text := "", url := "u",
           source := "S", category := "m" },
         { title := "B", start := some 2000, date_text := "", url := "v",
           source := "S", category := "m" }] 500).Pairwise
      (fun a b => sortKey a ≤ sortKey b) :=
  (c10_selection_sublist_capped _ 500).2.2.2.2 (by decide)

/-- Unfolding of the rebuild branch of `refresh_cache_if_needed`: when the
freshness guard fails, the returned snapshot is the scraped, filtered,
sorted rebuild stamped with `now_ts`. -/
theorem refresh_rebuild (sources : List SourceCfg) (c : Cache) (force : Bool)
    (nts : Nat) (ndt : Nat) (o : String → Except String Page)
    (h : cacheFresh c force nts = false) :
    refresh_cache_if_needed sources c force nts ndt o =
      { ts := nts,
        events := sortByStart
          ((((sources.map fun src => scrape_source src o ndt).map Prod.fst).flatten).filter
            (upcomingKeep ndt)),
        errors := ((sources.map fun src => scrape_source src o ndt).map Prod.snd).flatten } := by
  rw [refresh_cache_if_needed, if_neg (by simp [h])]

/-- Inversion of the upcoming-events filter predicate. -/
theorem upcomingKeep_spec (ndt : Nat) (e : Ev) (h : upcomingKeep ndt e = true) :
    ∃ d, e.start = some d ∧ ndt - 21600 ≤ d := by
  unfold upcomingKeep at h
  cases hs : e.start with
  | none => rw [hs] at h; simp at h
  | some d =>
    rw [hs] at h
    exact ⟨d, rfl, of_decide_eq_true h⟩

/-- Claim C6 (confirmed): after a refresh (rebuild path), every cached
event carries a resolved start no more than 6 hours (21600 s) before the
refresh's reference time, and the events are sorted ascending by start. -/
theorem c6_refresh_grace_and_sorted (sources : List SourceCfg) (c : Cache)
    (nts : Nat) (ndt : Nat) (o : String → Except String Page) :
    (∀ e ∈ (refresh_cache_if_needed sources c true nts ndt o).events,
      ∃ d, e.start = some d ∧ ndt - 21600 ≤ d)
    ∧ (refresh_cache_if_needed sources c true nts ndt o).events.Pairwise
        (fun a b => sortKey a ≤ sortKey b) := by
  rw [refresh_rebuild sources c true nts ndt o (by simp [cacheFresh])]
  constructor
  · intro e he
    rw [mem_sortByStart, List.mem_filter] at he
    exact upcomingKeep_spec ndt e he.2
  · exact sorted_sortByStart _

/-- The source configuration used to instantiate `c6_refresh_grace_and_sorted`. -/
def c6cfg : SourceCfg :=
  { name := "S", category := "music", urls := ["https://s.example/e"] }

/-- A page whose JSON-LD yields one well-formed event. -/
def c6page : Page :=
  { scripts := [some (.obj
      [("@type", Json.str "Event"), ("name", Json.str "Jazz Night"),
       ("startDate", Json.str "2026-10-20T19:00:00"),
       ("url", Json.str "https://s.example/jazz")])],
    blocks := [] }

/-- A fetch oracle returning `c6page` for every URL. -/
def c6oracle : String → Except String Page := fun _ => .ok c6page

/-- The event `c6page` produces. -/
def c6ev : Ev :=
  { title := "Jazz Night", start := some 1792522800,
    date_text := "2026-10-20T19:00:00", url := "https://s.example/jazz",
    source := "S", category := "music" }

/-- Concrete instantiation of `c6_refresh_grace_and_sorted`, discharging its
membership hypothesis on a refresh that stores one event. -/
theorem c6_refresh_grace_and_sorted_witness :
    (∃ d, c6ev.start = some d ∧ (1792400000 : Nat) - 21600 ≤ d)
    ∧ (refresh_cache_if_needed [c6cfg] initialCache true 5 1792400000 c6oracle).events.Pairwise
        (fun a b => sortKey a ≤ sortKey b) := by
  have h := c6_refresh_grace_and_sorted [c6cfg] initialCache 5 1792400000 c6oracle
  exact ⟨h.1 c6ev (by decide), h.2⟩

/-- Shifting by whole days commutes with taking midnight. -/
theorem midnight_add_days (t : Nat) (k : Nat) :
    midnight (t + k * 86400) = midnight t + k * 86400 := by
  unfold midnight
  rw [Nat.add_mul_div_right _ _ (by norm_num : (0:Nat) < 86400)]
  ring

/-- Claim C5 (corrected, amended form): the selection window starts at the
Saturday `(5 - weekday) mod 7` days ahead, which agrees with the
spec's "current weekend" rule on Monday..Saturday but on a Sunday lies one
full week later (the spec's own weekend is missed); the selection itself is
exactly the events inside the window, capped at 8. -/
theorem c5_amended_weekend_window (base : Nat) :
    (weekdayOf base ≠ 6 → weekend_range base = spec_weekend_range base)
    ∧ (weekdayOf base = 6 →
        (weekend_range base).1 = (spec_weekend_range base).1 + 7 * 86400
        ∧ (weekend_range base).2 = (spec_weekend_range base).2 + 7 * 86400)
    ∧ ∀ evs, select_weekend evs base =
        (evs.filter fun ev =>
          match ev.start with
          | some d =>
            decide ((weekend_range base).1 ≤ d) && decide (d ≤ (weekend_range base).2)
          | none => false).take 8 := by
  have hw7 : weekdayOf base < 7 := Nat.mod_lt _ (by norm_num)
  refine ⟨?_, ?_, fun evs => rfl⟩
  · intro h6
    have hcases : weekdayOf base = 0 ∨ weekdayOf base = 1 ∨ weekdayOf base = 2
        ∨ weekdayOf base = 3 ∨ weekdayOf base = 4 ∨ weekdayOf base = 5 := by omega
    unfold weekend_range spec_weekend_range
    rw [midnight_add_days]
    rcases hcases with h | h | h | h | h | h <;> rw [h] <;> norm_num
  · intro h6
    unfold weekend_range spec_weekend_range
    rw [midnight_add_days, h6, if_pos rfl]
    have h6x : (base / 86400 + 3) % 7 = 6 := h6
    unfold midnight
    dsimp only
    constructor <;> (clear hw7 h6; omega)

/-- A Sunday noon reference instant (day 20744 since the epoch). -/
def c5base : Nat := 20744 * 86400 + 43200

/-- An event on that same Sunday at 17:00. -/
def c5ev : Ev :=
  { title := "Sunday Matinee", start := some (20744 * 86400 + 61200),
    date_text := "", url := "u", source := "S", category := "music" }

/-- Counterexample to claim C5 as stated: on a Sunday reference time, an
event inside the spec's current Saturday-Sunday window is not selected —
the code's window is the following weekend. -/
theorem c5_counterexample :
    weekdayOf c5base = 6
    ∧ (spec_weekend_range c5base).1 ≤ 20744 * 86400 + 61200
    ∧ 20744 * 86400 + 61200 ≤ (spec_weekend_range c5base).2
    ∧ select_weekend [c5ev] c5base = [] := by decide

/-- Concrete instantiation of `c5_amended_weekend_window`, discharging the
weekday hypotheses on a Monday and on a Sunday. -/
theorem c5_amended_weekend_window_witness :
    weekend_range (20738 * 86400) = spec_weekend_range (20738 * 86400)
    ∧ (weekend_range c5base).1 = (spec_weekend_range c5base).1 + 7 * 86400 :=
  ⟨(c5_amended_weekend_window (20738 * 86400)).1 (by decide),
   ((c5_amended_weekend_window c5base).2.1 (by decide)).1⟩

/-- A fetch oracle on which every URL fails. -/
def failOracle : String → Except String Page := fun _ => .error "boom"

/-- A cache produced by a completed refresh in which every source failed:
`ts` is stamped but `events` is empty. -/
def c4warm : Cache :=
  refresh_cache_if_needed SOURCES initialCache true 1000000 1000000 failOracle

/-- Counterexample to claim C4 as stated: after a prior refresh that stored
zero events, a call with `force = false` within the TTL is **not** a no-op —
the guard also requires a non-empty events list, so the cache is rebuilt
(its `ts` moves to the new clock reading). -/
theorem c4_counterexample :
    c4warm.events = [] ∧ c4warm.ts = 1000000
    ∧ (1000010 : Nat) - c4warm.ts < CACHE_TTL_SECONDS
    ∧ (refresh_cache_if_needed SOURCES c4warm false 1000010 1000010 failOracle).ts = 1000010
    ∧ ¬(refresh_cache_if_needed SOURCES c4warm false 1000010 1000010 failOracle = c4warm) := by
  decide

/-- Claim C4 (corrected, amended form): the call is a no-op exactly when
`force` is false, the cache age is strictly below the TTL **and** the cached
events list is non-empty (a prior refresh that stored zero events does not
count as populated); otherwise — in particular whenever `force` is true —
the snapshot is rebuilt and restamped. -/
theorem c4_amended_guard (sources : List SourceCfg) (c : Cache) (force : Bool)
    (nts : Nat) (ndt : Nat) (o : String → Except String Page) :
    (cacheFresh c force nts = true ↔
      force = false ∧ nts - c.ts < CACHE_TTL_SECONDS ∧ c.events ≠ [])
    ∧ (cacheFresh c force nts = true →
        refresh_cache_if_needed sources c force nts ndt o = c)
    ∧ (cacheFresh c force nts = false →
        (refresh_cache_if_needed sources c force nts ndt o).ts = nts)
    ∧ (force = true →
        (refresh_cache_if_needed sources c force nts ndt o).ts = nts) := by
  have hiff : cacheFresh c force nts = true ↔
      force = false ∧ nts - c.ts < CACHE_TTL_SECONDS ∧ c.events ≠ [] := by
    unfold cacheFresh
    cases force <;> simp [List.isEmpty_iff]
  refine ⟨hiff, ?_, ?_, ?_⟩
  · intro h
    rw [refresh_cache_if_needed, if_pos h]
  · intro h
    rw [refresh_rebuild sources c force nts ndt o h]
  · intro hf
    have hfalse : cacheFresh c force nts = false := by
      subst hf
      simp [cacheFresh]
    rw [refresh_rebuild sources c force nts ndt o hfalse]

/-- An arbitrary cached event for the C4 witness cache. -/
def c4ev : Ev :=
  { title := "Cached", start := some 42, date_text := "", url := "u",
    source := "S", category := "m" }

/-- Concrete instantiation of `c4_amended_guard`: a warm non-empty cache is
left untouched with `force = false`, and is restamped with `force = true`. -/
theorem c4_amended_guard_witness :
    refresh_cache_if_needed SOURCES { ts := 100, events := [c4ev], errors := [] }
        false 110 110 failOracle
      = { ts := 100, events := [c4ev], errors := [] }
    ∧ (refresh_cache_if_needed SOURCES { ts := 100, events := [c4ev], errors := [] }
        true 110 110 failOracle).ts = 110 :=
  ⟨(c4_amended_guard SOURCES _ false 110 110 failOracle).2.1 (by decide),
   (c4_amended_guard SOURCES _ true 110 110 failOracle).2.2.2 rfl⟩

/-- The per-URL outcome on the success side: the events a URL contributes,
or `none` when its fetch or processing failed. -/
def cfgOk (cfg : SourceCfg) (o : String → Except String Page) (now : Nat)
    (url : String) : Option (List Ev) :=
  match o url with
  | .error _ => none
  | .ok page =>
    match processPage page url cfg now with
    | .error _ => none
    | .ok got => some got

/-- The per-URL outcome on the failure side: the diagnostic string a URL
contributes, or `none` when it succeeded. -/
def cfgDiag (cfg : SourceCfg) (o : String → Except String Page) (now : Nat)
    (url : String) : Option String :=
  match o url with
  | .error msg => some (diagOf cfg.name url msg)
  | .ok page =>
    match processPage page url cfg now with
    | .error msg => some (diagOf cfg.name url msg)
    | .ok _ => none

/-- The diagnostics one source accumulates: exactly one entry per failed
URL, in URL order. -/
def urlDiagnostics (cfg : SourceCfg) (o : String → Except String Page)
    (now : Nat) : List String :=
  cfg.urls.filterMap (cfgDiag cfg o now)

/-- The events one source accumulates before deduplication: the
concatenation of the per-URL results of the successful URLs only. -/
def urlOkEvents (cfg : SourceCfg) (o : String → Except String Page)
    (now : Nat) : List Ev :=
  (cfg.urls.filterMap (cfgOk cfg o now)).flatten

/-- The `scrape_source` loop splits into independent success and failure
streams: the accumulator pair is extended pointwise. -/
theorem scrapeFold_split (cfg : SourceCfg) (o : String → Except String Page)
    (now : Nat) (urls : List String) :
    ∀ (E : List Ev) (R : List String),
      urls.foldl (scrapeStep cfg o now) (E, R) =
        (E ++ (urls.filterMap (cfgOk cfg o now)).flatten,
         R ++ urls.filterMap (cfgDiag cfg o now)) := by
  induction urls with
  | nil => intro E R; simp
  | cons u rest ih =>
    intro E R
    rw [List.foldl_cons]
    cases ho : o u with
    | error msg =>
      rw [show scrapeStep cfg o now (E, R) u =
            (E, R ++ [diagOf cfg.name u msg]) by simp only [scrapeStep, ho]]
      rw [ih]
      simp [List.filterMap_cons, cfgOk, cfgDiag, ho]
    | ok page =>
      cases hp : processPage page u cfg now with
      | error msg =>
        rw [show scrapeStep cfg o now (E, R) u =
              (E, R ++ [diagOf cfg.name u msg]) by simp only [scrapeStep, ho, hp]]
        rw [ih]
        simp [List.filterMap_cons, cfgOk, cfgDiag, ho, hp]
      | ok got =>
        rw [show scrapeStep cfg o now (E, R) u = (E ++ got, R) by
              simp only [scrapeStep, ho, hp]]
        rw [ih]
        simp [List.filterMap_cons, cfgOk, cfgDiag, ho, hp]

/-- `scrape_source` in closed form: deduplicated events of the successful
URLs, paired with one diagnostic per failed URL. -/
theorem scrape_source_split (cfg : SourceCfg) (o : String → Except String Page)
    (now : Nat) :
    scrape_source cfg o now =
      (dedupe (urlOkEvents cfg o now), urlDiagnostics cfg o now) := by
  unfold scrape_source urlOkEvents urlDiagnostics
  rw [scrapeFold_split]
  simp

/-- The errors sequence a full refresh rebuild stores: the concatenation,
in source order, of each source's per-failed-URL diagnostics. -/
def refresh_errors (sources : List SourceCfg) (o : String → Except String Page)
    (now : Nat) : List String :=
  (sources.map fun cfg => urlDiagnostics cfg o now).flatten

/-- The events a full refresh rebuild stores, computed from the successful
fetches only. -/
def refresh_events (sources : List SourceCfg) (o : String → Except String Page)
    (now : Nat) : List Ev :=
  sortByStart
    (((sources.map fun cfg => dedupe (urlOkEvents cfg o now)).flatten).filter
      (upcomingKeep now))

/-- Claim C3 (confirmed): for every combination of per-URL fetch failures,
malformed markup and unparseable dates (any oracle `o`), the refresh
operation is a total function returning a snapshot: either the fresh-cache
no-op, or a rebuilt snapshot whose `errors` are exactly the diagnostics of
the failed URLs (one per failure, sources isolated) and whose `events` are
computed from the successful fetches alone — no error propagates. -/
theorem c3_refresh_never_propagates (sources : List SourceCfg) (c : Cache)
    (force : Bool) (nts : Nat) (ndt : Nat) (o : String → Except String Page) :
    refresh_cache_if_needed sources c force nts ndt o = c
    ∨ refresh_cache_if_needed sources c force nts ndt o =
        { ts := nts,
          events := refresh_events sources o ndt,
          errors := refresh_errors sources o ndt } := by
  by_cases h : cacheFresh c force nts = true
  · left
    rw [refresh_cache_if_needed, if_pos h]
  · right
    rw [refresh_rebuild sources c force nts ndt o (by
      cases hb : cacheFresh c force nts
      · rfl
      · exact absurd hb h)]
    unfold refresh_events refresh_errors
    have hmap : (sources.map fun src => scrape_source src o ndt)
        = sources.map fun src =>
            (dedupe (urlOkEvents src o ndt), urlDiagnostics src o ndt) :=
      List.map_congr_left fun src _ => scrape_source_split src o ndt
    rw [hmap, List.map_map, List.map_map]
    rfl

/-- Counterexample to claim C1 as stated: a JSON-LD Event node with a
non-empty `name` and a fully resolvable `startDate` but no `url` field is
**dropped** (there is no fallback to the source's URL), while a node with
`name` and `url` but an unresolvable `startDate` is **kept** with a null
start — the extractor's keep condition is `name` and `url`, not `name` and
`start`. -/
theorem c1_counterexample :
    parse_jsonld_events
        [some (.obj [("@type", Json.str "Event"), ("name", Json.str "Jazz Night"),
                     ("startDate", Json.str "2026-10-20T19:00:00")])]
        "The Adelphia" "music"
      = .ok []
    ∧ dtparse_full "2026-10-20T19:00:00" = some 1792522800
    ∧ parse_jsonld_events
        [some (.obj [("@type", Json.str "Event"), ("name", Json.str "Jazz Night"),
                     ("startDate", Json.str "not a real date"),
                     ("url", Json.str "https://x.example/jazz")])]
        "The Adelphia" "music"
      = .ok [{ title := "Jazz Night", start := none,
               date_text := "not a real date", url := "https://x.example/jazz",
               source := "The Adelphia", category := "music" }] := by
  refine ⟨rfl, rfl, rfl⟩

/-- Claim C1 (corrected, amended form): an Event node with string-valued
fields yields a RawEvent **iff** its name and its url are both non-empty;
a missing or unresolvable start does not drop the node at extraction (the
event is kept with a null start, to be filtered at cache-refresh time),
and no url fallback to the source's own URL exists. -/
theorem c1_amended_kept_iff_name_and_url (t s u src cat : String) :
    parse_jsonld_events
        [some (.obj [("@type", Json.str "Event"), ("name", Json.str t),
                     ("startDate", Json.str s), ("url", Json.str u)])] src cat
      = .ok (if t ≠ "" ∧ u ≠ "" then
               [normalize_event t (if s ≠ "" then dtparse_full s else none)
                  u src cat s]
             else []) := by
  by_cases ht : t = "" <;> by_cases hu : u = "" <;> by_cases hs : s = "" <;>
    simp [parse_jsonld_events, processNodes, processEventNode, flattenNodes,
          jlookup, jget, pyOr, jsonTruthy, isEventType, pyStr, strLower,
          ht, hu, hs]

/-- The reference instant 2026-10-12T12:00:00 used for the C2
counterexample. -/
def c2now : Nat := daysFromCivil 2026 10 12 * 86400 + 43200

/-- Counterexample to claim C2 as stated: the year-less text `"January 5"`,
whose default-year parse falls before the October reference time, resolves
to the **past** January 5 of the same default year — `safe_parse_date`
performs no year advancement at all. -/
theorem c2_counterexample :
    safe_parse_date "January 5" c2now
      = some (daysFromCivil 2026 1 5 * 86400 + 43200)
    ∧ daysFromCivil 2026 1 5 * 86400 + 43200 < c2now := by
  refine ⟨by decide, by decide⟩

/-- The fuzzy parse of a token stream holding a month name followed by a
single day token resolves with the default's year and time of day. -/
theorem dtparse_fuzzy_month_day (txt : String) (now m d : Nat) (dtok : String)
    (hfind : findMonthToken (fuzzyTokens txt) = some (m, [dtok]))
    (hnum : strToNat? dtok = some d)
    (h1 : 1 ≤ d) (h31 : d ≤ 31) (hlen : dtok.length ≤ 2) :
    dtparse_fuzzy txt now = mkValidDT (yearOfDT now) m d (now % 86400) := by
  unfold dtparse_fuzzy
  rw [hfind]
  dsimp only
  rw [hnum]
  dsimp only
  have hcond : (decide (1 ≤ d) && decide (d ≤ 31) && decide (dtok.length ≤ 2)) = true := by
    simp [h1, h31, hlen]
  rw [if_pos hcond]

/-- When the month-name gate fires, `safe_parse_date` hands the stripped
text to the fuzzy parser. -/
theorem safe_parse_gate (text : String) (now : Nat)
    (hgate : monthSearch (strTrim text) = true) :
    safe_parse_date text now = dtparse_fuzzy (strTrim text) now := by
  have hne : ¬(strTrim text = "") := by
    intro hc
    rw [hc] at hgate
    simp [monthSearch, monthSearchAux] at hgate
  unfold safe_parse_date
  rw [if_neg hne, hgate]
  simp only [Bool.true_or, Bool.not_true, Bool.false_eq_true, if_false]

/-- Claim C2 (corrected, amended form): a year-less month-name date is
resolved with the **default's own year** (`yearOfDT now`) and time of day,
with no adjustment toward the future — the result may lie before
`referenceNow`. -/
theorem c2_amended_default_year (text : String) (now m d : Nat) (dtok : String)
    (hgate : monthSearch (strTrim text) = true)
    (hfind : findMonthToken (fuzzyTokens (strTrim text)) = some (m, [dtok]))
    (hnum : strToNat? dtok = some d)
    (h1 : 1 ≤ d) (h31 : d ≤ 31) (hlen : dtok.length ≤ 2) :
    safe_parse_date text now = mkValidDT (yearOfDT now) m d (now % 86400) := by
  rw [safe_parse_gate text now hgate]
  exact dtparse_fuzzy_month_day (strTrim text) now m d dtok hfind hnum h1 h31 hlen

/-- Concrete instantiation of `c2_amended_default_year` at the text
`"January 5"` and the reference instant `c2now`. -/
theorem c2_amended_default_year_witness :
    safe_parse_date "January 5" c2now
      = mkValidDT (yearOfDT c2now) 1 5 (c2now % 86400) :=
  c2_amended_default_year "January 5" c2now 1 5 "5"
    (by decide) (by decide) (by decide) (by decide) (by decide) (by decide)

/-- The reference instant (2026-10-01T00:00:00) for the C9 examples. -/
def c9now : Nat := daysFromCivil 2026 10 1 * 86400

/-- A container holding **two** usable links plus date-bearing text. -/
def c9block : Block :=
  { anchors := [{ text := "Fall Art Walk", href := "/fall" },
                { text := "Tickets here now", href := "/tix" }],
    text := "Fall Art Walk Saturday, October 12" }

/-- Counterexample to claim C9 as stated: a container holding **more than
one** usable embedded link still yields a candidate — the extractor takes
the container's *first* link rather than requiring exactly one. -/
theorem c9_counterexample :
    c9block.anchors.length = 2
    ∧ parse_basic_event_links [c9block] "https://ex.com" "S" "arts" c9now
      = [{ title := "Fall Art Walk",
           start := some (daysFromCivil 2026 10 12 * 86400),
           date_text := "Fall Art Walk Saturday, October 12",
           url := "https://ex.com/fall", source := "S", category := "arts" }] := by
  refine ⟨rfl, by decide⟩

/-- Claim C9 (corrected, amended form): a candidate comes only from a
container holding **at least one** link — the first link found — whose
visible text is at least 4 characters; link-less containers and shorter
titles yield nothing, and the candidate exists exactly when the container's
text resolves through `safe_parse_date`. -/
theorem c9_amended_first_anchor (b : Block) (base src cat : String) (now : Nat) :
    (b.anchors = [] → parse_basic_event_links [b] base src cat now = [])
    ∧ (∀ a rest, b.anchors = a :: rest → a.text.length < 4 →
        parse_basic_event_links [b] base src cat now = [])
    ∧ (∀ a rest, b.anchors = a :: rest → 4 ≤ a.text.length →
        parse_basic_event_links [b] base src cat now =
          match safe_parse_date b.text now with
          | none => []
          | some d => [normalize_event a.text (some d)
              (absoluteUrl base (strTrim a.href)) src cat b.text]) := by
  refine ⟨?_, ?_, ?_⟩
  · intro h
    unfold parse_basic_event_links
    simp [h]
    rfl
  · intro a rest h h4
    have hcond : a.text = "" ∨ a.text.length < 4 := Or.inr h4
    unfold parse_basic_event_links
    simp [h, List.filterMap_cons, hcond]
    rfl
  · intro a rest h h4
    have hne : ¬(a.text = "" ∨ a.text.length < 4) := by
      rintro (hc | hc)
      · rw [hc] at h4
        simp at h4
      · omega
    unfold parse_basic_event_links
    cases hp : safe_parse_date b.text now with
    | none =>
      simp [h, List.filterMap_cons, hne, hp]
      rfl
    | some d =>
      simp [h, List.filterMap_cons, hne, hp]
      rfl

/-- Concrete instantiation of `c9_amended_first_anchor`: a link-less
container yields nothing, and a container with links yields the candidate
built from its first link. -/
theorem c9_amended_first_anchor_witness :
    parse_basic_event_links [{ anchors := [], text := "October 12" }]
        "https://b.example" "S" "arts" c9now = []
    ∧ parse_basic_event_links [c9block] "https://ex.com" "S" "arts" c9now =
        match safe_parse_date c9block.text c9now with
        | none => []
        | some d => [normalize_event "Fall Art Walk" (some d)
            (absoluteUrl "https://ex.com" (strTrim "/fall")) "S" "arts" c9block.text] :=
  ⟨(c9_amended_first_anchor _ "https://b.example" "S" "arts" c9now).1 rfl,
   (c9_amended_first_anchor c9block "https://ex.com" "S" "arts" c9now).2.2
     { text := "Fall Art Walk", href := "/fall" }
     [{ text := "Tickets here now", href := "/tix" }] rfl (by decide)⟩

/-- The first line of a joined block bounds the joined length from below. -/
theorem joinLines_length (a : String) (l : List String) :
    a.length ≤ (joinLines (a :: l)).length := by
  cases l with
  | nil => simp [joinLines]
  | cons b bs =>
    have hstep : joinLines (a :: b :: bs) = a ++ "\n" ++ joinLines (b :: bs) := rfl
    rw [hstep, String.length_append, String.length_append]
    omega

/-- `answer_query` always renders a non-empty string: every branch returns
either a non-empty literal or a non-empty header prefixed to the rendered
selection. -/
theorem answer_query_ne_empty (t : String) (events : List Ev) (now : Nat) :
    answer_query t events now ≠ "" := by
  unfold answer_query
  dsimp only
  repeat' split
  all_goals first
    | decide
    | (apply append_ne_empty; decide)

/-- `welcome_message` always renders a non-empty string (it starts with the
greeting line). -/
theorem welcome_message_ne_empty (events : List Ev) (now : Nat) :
    welcome_message events now ≠ "" := by
  unfold welcome_message
  apply ne_empty_of_length_pos
  calc 0 < ("Hi, I’m " ++ EL_NAME ++ " — your insider for everything happening around the MOV.\n").length := by decide
    _ ≤ _ := joinLines_length _ _

/-- Claim C8 (confirmed): `handle_chat` rejects exactly the messages that
are empty after trimming (the transport-level 400), and for every non-empty
message and every cache state it returns a non-empty rendered string —
never an exception-shaped result, never an empty payload. -/
theorem c8_handle_chat_contract (message : String) (events : List Ev) (now : Nat) :
    (strTrim message = "" →
      handle_chat message events now = .error "Message is required")
    ∧ (strTrim message ≠ "" →
        ∃ s, handle_chat message events now = .ok s ∧ s ≠ "") := by
  constructor
  · intro h
    unfold handle_chat
    rw [if_pos h]
  · intro h
    unfold handle_chat
    rw [if_neg h]
    by_cases hw : strTrim message = "__WELCOME__"
    · rw [if_pos hw]
      exact ⟨_, rfl, welcome_message_ne_empty events now⟩
    · rw [if_neg hw]
      exact ⟨_, rfl, answer_query_ne_empty _ events now⟩

/-- Concrete instantiation of `c8_handle_chat_contract`: a whitespace-only
message is rejected; a real query gets a non-empty reply. -/
theorem c8_handle_chat_contract_witness :
    handle_chat "   " [] 0 = .error "Message is required"
    ∧ ∃ s, handle_chat "music tonight" [] 0 = .ok s ∧ s ≠ "" :=
  ⟨(c8_handle_chat_contract "   " [] 0).1 (by decide),
   (c8_handle_chat_contract "music tonight" [] 0).2 (by decide)⟩

end SpliceApp
